import Mathlib

/-!
Shallow embedding of the table-grid and bounding-box-geometry core of the
ADE example scripts (skill_v1/scripts).  Coordinates are normalized
rationals; grids are sparse maps from (row, col) to content.  Each
definition is translated from the named script and line range given in its
doc comment.
-/

namespace ADE

/-- Normalized bounding box, four rational coordinates
(`grounding.box` in the scripts). -/
structure Box where
  left : ℚ
  top : ℚ
  right : ℚ
  bottom : ℚ
deriving DecidableEq

/-- Cell-in-table containment test with fixed tolerance 1/100,
from `handle_tables.py` lines 41-44 (`analyze_table_structure`). -/
def contains (outer inner : Box) : Bool :=
  decide (inner.left ≥ outer.left - 1/100) &&
  decide (inner.right ≤ outer.right + 1/100) &&
  decide (inner.top ≥ outer.top - 1/100) &&
  decide (inner.bottom ≤ outer.bottom + 1/100)

/-- Containment test with no tolerance, from `handle_tables.py`
lines 398-401 and 405-408 (`extract_nested_tables`): is `inner`
inside `outer`. -/
def insideBox (inner outer : Box) : Bool :=
  decide (inner.left ≥ outer.left) &&
  decide (inner.right ≤ outer.right) &&
  decide (inner.top ≥ outer.top) &&
  decide (inner.bottom ≤ outer.bottom)

/-- Outcome of the per-pair nesting test in `extract_nested_tables`. -/
inductive NestedResult where
  | secondInsideFirst
  | firstInsideSecond
  | neither
deriving DecidableEq

/-- The nesting decision applied to one ordered pair of table boxes,
from `handle_tables.py` lines 397-410: first branch tests whether the
second box is inside the first. -/
def nestedCheck (t1 t2 : Box) : NestedResult :=
  if insideBox t2 t1 then .secondInsideFirst
  else if insideBox t1 t2 then .firstInsideSecond
  else .neither

/-- Grounding record for a table: page number and box. -/
structure TableGrounding where
  page : Nat
  box : Box
deriving DecidableEq

/-- Pair step of the nested-tables double loop (`handle_tables.py`
lines 397-410): the pairs appended for one ordered pair of tables. -/
def pairResult (t1 t2 : String × TableGrounding) : List (String × String) :=
  if insideBox t2.2.box t1.2.box then [(t1.1, t2.1)]
  else if insideBox t1.2.box t2.2.box then [(t2.1, t1.1)]
  else []

/-- The nested-pairs accumulation of `extract_nested_tables`
(`handle_tables.py` lines 391-410): every ordered pair with the first
table earlier in the list is tested; no page check occurs. -/
def nestedPairs : List (String × TableGrounding) → List (String × String)
  | [] => []
  | t :: ts => ts.flatMap (pairResult t) ++ nestedPairs ts

/-- Position metadata of a table cell grounding
(`grounding.position` in the scripts). -/
structure CellPos where
  row : Nat
  col : Nat
  rowspan : Nat
  colspan : Nat
deriving DecidableEq

/-- Grounding record for a table cell as used by
`analyze_table_structure`: page, box, and optional position metadata
(the `hasattr(cell, 'position')` check). -/
structure CellGrounding where
  page : Nat
  box : Box
  position : Option CellPos
deriving DecidableEq

/-- Cell-to-table association of `analyze_table_structure`
(`handle_tables.py` lines 38-45): keep cells that carry position
metadata, lie on the table's page, and are inside the table box with
tolerance.  Cells on another page are skipped, not reported. -/
def tableCellsFor (table : TableGrounding)
    (cells : List (String × CellGrounding)) : List (String × CellGrounding) :=
  cells.filter fun c =>
    c.2.position.isSome && (c.2.page == table.page) && contains table.box c.2.box

/-- Placeholder content generated for a cell in
`extract_table_to_dataframe` (`handle_tables.py` line 100). -/
def cellContent (p : CellPos) : String :=
  "Cell R" ++ toString p.row ++ "C" ++ toString p.col

/-- Row dimension of `extract_table_to_dataframe`
(`handle_tables.py` line 88): maximum anchor row, spans ignored. -/
def dfMaxRow (cells : List CellPos) : Nat :=
  (cells.map (·.row)).foldl max 0

/-- Column dimension of `extract_table_to_dataframe`
(`handle_tables.py` line 89): maximum anchor column, spans ignored. -/
def dfMaxCol (cells : List CellPos) : Nat :=
  (cells.map (·.col)).foldl max 0

/-- Row dimension of `analyze_table_structure`
(`handle_tables.py` lines 51-52): maximum of anchor row + rowspan - 1. -/
def analyzeMaxRow (cells : List CellPos) : Nat :=
  (cells.map fun c => c.row + c.rowspan - 1).foldl max 0

/-- Column dimension of `analyze_table_structure`
(`handle_tables.py` lines 53-54): maximum of anchor col + colspan - 1. -/
def analyzeMaxCol (cells : List CellPos) : Nat :=
  (cells.map fun c => c.col + c.colspan - 1).foldl max 0

/-- The set of coordinates a cell occupies: anchor plus span expansion,
as iterated by the two nested `range` loops of `handle_tables.py`
lines 103-104. -/
def covers (p : CellPos) (rc : Nat × Nat) : Prop :=
  p.row ≤ rc.1 ∧ rc.1 < p.row + p.rowspan ∧
  p.col ≤ rc.2 ∧ rc.2 < p.col + p.colspan

instance (p : CellPos) (rc : Nat × Nat) : Decidable (covers p rc) := by
  unfold covers; exact inferInstance

/-- One cell's write into the dataframe grid (`handle_tables.py`
lines 102-106): every covered coordinate within the anchor-derived
bounds receives this cell's content, overwriting whatever was there. -/
def writeCell (maxR maxC : Nat) (g : Nat × Nat → Option String)
    (p : CellPos) : Nat × Nat → Option String :=
  fun rc =>
    if covers p rc ∧ rc.1 ≤ maxR ∧ rc.2 ≤ maxC then some (cellContent p)
    else g rc

/-- The grid produced by the fill loop of `extract_table_to_dataframe`
(`handle_tables.py` lines 88-106): cells are written in input order into
a grid whose bounds come from the anchors alone. -/
def dfGrid (cells : List CellPos) : Nat × Nat → Option String :=
  cells.foldl (writeCell (dfMaxRow cells) (dfMaxCol cells)) (fun _ => none)

/-- Per-cell record stored by `reconstruct_table_markdown`
(`handle_tables.py` lines 191-196). -/
structure CellData where
  gid : String
  rowspan : Nat
  colspan : Nat
  content : String
deriving DecidableEq

/-- The `cells_data` association built by `reconstruct_table_markdown`
(`handle_tables.py` lines 185-196), keyed by anchor coordinate.  The
script stores into a dict; entries here keep input order, and theorems
about a position never claimed twice are unaffected by the overwrite
semantics of the dict. -/
def buildCellsData (gs : List (String × CellPos)) :
    List ((Nat × Nat) × CellData) :=
  gs.map fun g =>
    ((g.2.row, g.2.col),
      ⟨g.1, g.2.rowspan, g.2.colspan,
        "Cell" ++ toString g.2.row ++ toString g.2.col⟩)

/-- Row dimension of `reconstruct_table_markdown`
(`handle_tables.py` line 203): maximum key row, spans ignored. -/
def mdMaxRow (cd : List ((Nat × Nat) × CellData)) : Nat :=
  (cd.map fun e => e.1.1).foldl max 0

/-- Column dimension of `reconstruct_table_markdown`
(`handle_tables.py` line 204): maximum key column, spans ignored. -/
def mdMaxCol (cd : List ((Nat × Nat) × CellData)) : Nat :=
  (cd.map fun e => e.1.2).foldl max 0

/-- Span suffix decoration of `reconstruct_table_markdown`
(`handle_tables.py` lines 214-220). -/
def annotContent (c : CellData) : String :=
  c.content
    ++ (if 1 < c.colspan then " (spans " ++ toString c.colspan ++ " cols)" else "")
    ++ (if 1 < c.rowspan then " (spans " ++ toString c.rowspan ++ " rows)" else "")

/-- The covered-position test of `reconstruct_table_markdown`
(`handle_tables.py` lines 226-229): the entry spans the queried
coordinate and its key differs from it. -/
def coveredBy (e : (Nat × Nat) × CellData) (row col : Nat) : Prop :=
  e.1.1 ≤ row ∧ row < e.1.1 + e.2.rowspan ∧
  e.1.2 ≤ col ∧ col < e.1.2 + e.2.colspan ∧
  (e.1.1 ≠ row ∨ e.1.2 ≠ col)

instance (e : (Nat × Nat) × CellData) (row col : Nat) :
    Decidable (coveredBy e row col) := by
  unfold coveredBy; exact inferInstance

/-- The token rendered at one coordinate by `reconstruct_table_markdown`
(`handle_tables.py` lines 212-235): an anchored entry renders its
decorated content; otherwise the first entry covering the coordinate
yields the merged-cell indicator; otherwise the empty string. -/
def renderToken (cd : List ((Nat × Nat) × CellData)) (row col : Nat) : String :=
  match cd.find? (fun e => e.1 == (row, col)) with
  | some e => annotContent e.2
  | none =>
    match cd.find? (fun e => decide (coveredBy e row col)) with
    | some _ => "^^"
    | none => ""

/-- One emitted markdown line: a data row of cell tokens, or the
header-separator row with its column count. -/
inductive MdLine where
  | row (cells : List String)
  | sep (cols : Nat)
deriving DecidableEq

/-- Recognizer for the separator line. -/
def MdLine.isSep : MdLine → Bool
  | .sep _ => true
  | _ => false

/-- String form of an emitted line (`handle_tables.py` lines 238, 242). -/
def MdLine.render : MdLine → String
  | .row cells => "| " ++ String.intercalate " | " cells ++ " |"
  | .sep n => "|" ++ String.intercalate "|" (List.replicate n " --- ") ++ "|"

/-- The token list of one rendered data row
(`handle_tables.py` lines 210-235). -/
def rowTokens (cd : List ((Nat × Nat) × CellData)) (r : Nat) : List String :=
  (List.range (mdMaxCol cd + 1)).map (renderToken cd r)

/-- The full line sequence of `reconstruct_table_markdown`
(`handle_tables.py` lines 207-243): one data row per logical row in
`0..mdMaxRow`, with the separator appended directly after row 0. -/
def mdLines (cd : List ((Nat × Nat) × CellData)) : List MdLine :=
  (List.range (mdMaxRow cd + 1)).flatMap fun r =>
    MdLine.row (rowTokens cd r) ::
      (if r = 0 then [MdLine.sep (mdMaxCol cd + 1)] else [])

/-- The final markdown string (`handle_tables.py` line 245). -/
def markdownTable (cd : List ((Nat × Nat) × CellData)) : String :=
  String.intercalate "\n" ((mdLines cd).map MdLine.render)

/-- One `td` element as captured by the regular expression of
`get_pdf_table_cell.py` line 30-32: the attribute text consumed by the
pattern and the captured content. -/
structure Td where
  attrs : String
  content : String
deriving DecidableEq

/-- The position grid of `get_pdf_cell` (`get_pdf_table_cell.py`
lines 27-33): rows are enumerated, and within each row the `td`
elements are enumerated; each element is stored at its sequential
(row, column) index with its content.  The attribute text plays no
part. -/
def buildHtmlGrid (rows : List (List Td)) : List ((Nat × Nat) × String) :=
  rows.enum.flatMap fun r => r.2.enum.map fun c => ((r.1, c.1), c.2.content)

/-- Dictionary lookup on the position grid
(`get_pdf_table_cell.py` lines 35-38). -/
def lookupGrid (g : List ((Nat × Nat) × String)) (rc : Nat × Nat) :
    Option String :=
  (g.find? (fun e => e.1 == rc)).map (·.2)

/-- Failure outcomes of `get_pdf_cell`: the three raises of
`get_pdf_table_cell.py` lines 21, 23 and 36. -/
inductive PdfCellError where
  | noTables
  | tableIndexOutOfRange (requested : Nat) (available : Nat)
  | noCell (row : Nat) (col : Nat) (available : List (Nat × Nat))
deriving DecidableEq

/-- `get_pdf_cell` (`get_pdf_table_cell.py` lines 15-38) over the parsed
row structure of each detected table.  The script sorts the key list of
the no-cell message; the sort is omitted here as no stated property
depends on the display order. -/
def getPdfCell (tables : List (List (List Td))) (row col tableIndex : Nat) :
    Except PdfCellError String :=
  if tables.isEmpty then .error .noTables
  else if h : tables.length ≤ tableIndex then
    .error (.tableIndexOutOfRange tableIndex tables.length)
  else
    let grid := buildHtmlGrid (tables.get ⟨tableIndex, by omega⟩)
    match lookupGrid grid (row, col) with
    | some v => .ok v
    | none => .error (.noCell row col (grid.map (·.1)))

/-- Failure outcomes of `get_spreadsheet_cell`
(`get_spreadsheet_cell.py` lines 21 and 40). -/
inductive SpreadsheetError where
  | noTables
  | cellNotFound (cellId : String) (available : List String)
deriving DecidableEq

/-- Per-table id lookup of `get_spreadsheet_cell`
(`get_spreadsheet_cell.py` lines 25-34): the script fills a dict from
the id-attribute matches in order, so a repeated id keeps its last
occurrence; membership then returns that value. -/
def cellTextOf (table : List (String × String)) (cellId : String) :
    Option String :=
  (table.reverse.find? (fun e => e.1 == cellId)).map (·.2)

/-- The table scan of `get_spreadsheet_cell`
(`get_spreadsheet_cell.py` lines 24-34): tables are tried in document
order and the first containing the id wins. -/
def findCellInTables : List (List (String × String)) → String → Option String
  | [], _ => none
  | t :: ts, cid =>
    match cellTextOf t cid with
    | some v => some v
    | none => findCellInTables ts cid

/-- All known cell ids across the tables in document order
(`get_spreadsheet_cell.py` lines 36-39). -/
def allCellIds (tables : List (List (String × String))) : List String :=
  tables.flatMap (List.map Prod.fst)

/-- `get_spreadsheet_cell` (`get_spreadsheet_cell.py` lines 15-40) over
the id/content pairs extracted from each table.  The failure payload
truncates the known ids to the first ten. -/
def getSpreadsheetCell (tables : List (List (String × String)))
    (cellId : String) : Except SpreadsheetError String :=
  if tables.isEmpty then .error .noTables
  else
    match findCellInTables tables cellId with
    | some v => .ok v
    | none => .error (.cellNotFound cellId ((allCellIds tables).take 10))

/-! Concrete fixtures used by witnesses and counterexamples. -/

/-- A single cell anchored at row 5 with rowspan 3 and colspan 2. -/
def cellsC2 : List CellPos := [⟨5, 0, 3, 2⟩]

/-- A table grounding on page 2 used to exercise the cell filter. -/
def tableC7 : TableGrounding := ⟨2, ⟨0, 0, 1, 1⟩⟩

/-- A cell grounding on the same page, inside the table box. -/
def cellC7 : String × CellGrounding :=
  ("c1", ⟨2, ⟨0, 0, 1, 1⟩, some ⟨0, 0, 1, 1⟩⟩)

/-- Two parsed tables of one cell each. -/
def tablesC8 : List (List (List Td)) := [[[⟨"", "x"⟩]], [[⟨"", "y"⟩]]]

/-- One table exposing exactly two cell ids. -/
def tablesC9 : List (List (String × String)) := [[("a", "1"), ("b", "2")]]

/-- Three cells: a two-column merged header and two body cells. -/
def gsC4 : List (String × CellPos) :=
  [("g1", ⟨0, 0, 1, 2⟩), ("g2", ⟨1, 0, 1, 1⟩), ("g3", ⟨1, 1, 1, 1⟩)]

/-! Helper lemmas. -/

lemma init_le_foldl_max (l : List Nat) (init : Nat) :
    init ≤ l.foldl max init := by
  induction l generalizing init with
  | nil => exact le_refl _
  | cons b l ih =>
    rw [List.foldl_cons]
    exact le_trans (le_max_left init b) (ih (max init b))

lemma le_foldl_max (l : List Nat) (init : Nat) :
    ∀ a ∈ l, a ≤ l.foldl max init := by
  induction l generalizing init with
  | nil => intro a ha; exact absurd ha (List.not_mem_nil a)
  | cons b l ih =>
    intro a ha
    rw [List.foldl_cons]
    rcases List.mem_cons.mp ha with h | h
    · subst h
      exact le_trans (le_max_right init a) (init_le_foldl_max l (max init a))
    · exact ih (max init b) a h

lemma foldl_max_le (l : List Nat) (init b : Nat) (h0 : init ≤ b)
    (h : ∀ a ∈ l, a ≤ b) : l.foldl max init ≤ b := by
  induction l generalizing init with
  | nil => exact h0
  | cons c l ih =>
    rw [List.foldl_cons]
    exact ih (max init c) (max_le h0 (h c (List.mem_cons_self c l)))
      fun a ha => h a (List.mem_cons_of_mem c ha)

lemma foldl_writeCell_eq (maxR maxC : Nat) (l : List CellPos)
    (g : Nat × Nat → Option String) (rc : Nat × Nat) :
    l.foldl (writeCell maxR maxC) g rc =
      match l.reverse.find?
          (fun p => decide (covers p rc ∧ rc.1 ≤ maxR ∧ rc.2 ≤ maxC)) with
      | some p => some (cellContent p)
      | none => g rc := by
  induction l generalizing g with
  | nil => rfl
  | cons p l ih =>
    rw [List.foldl_cons, ih, List.reverse_cons, List.find?_append]
    cases hf : l.reverse.find?
        (fun q => decide (covers q rc ∧ rc.1 ≤ maxR ∧ rc.2 ≤ maxC)) with
    | some q => rfl
    | none =>
      by_cases hcond : covers p rc ∧ rc.1 ≤ maxR ∧ rc.2 ≤ maxC
      · simp [writeCell, hcond]
      · simp [writeCell, hcond]

lemma findCellInTables_eq_none (tables : List (List (String × String)))
    (cellId : String) :
    (∀ t ∈ tables, ∀ e ∈ t, e.1 ≠ cellId) →
      findCellInTables tables cellId = none := by
  induction tables with
  | nil => intro _; rfl
  | cons t ts ih =>
    intro habs
    have h1 : cellTextOf t cellId = none := by
      unfold cellTextOf
      have hfind : t.reverse.find? (fun e => e.1 == cellId) = none := by
        apply List.find?_eq_none.mpr
        intro x hx
        simp only [beq_iff_eq]
        exact habs t (List.mem_cons_self t ts) x (List.mem_reverse.mp hx)
      rw [hfind]; rfl
    simp only [findCellInTables, h1]
    exact ih fun t2 ht2 e he => habs t2 (List.mem_cons_of_mem t ht2) e he

/-! Claim theorems. -/

/-- C5: the containment test with fixed tolerance 1/100 returns true
exactly when the four tolerant interval inequalities hold, and it is
reflexive: `contains A A` is true for every box `A`. -/
theorem C5_contains_iff_and_reflexive :
    (∀ outer inner : Box,
      (contains outer inner = true ↔
        inner.left ≥ outer.left - 1/100 ∧ inner.right ≤ outer.right + 1/100 ∧
        inner.top ≥ outer.top - 1/100 ∧ inner.bottom ≤ outer.bottom + 1/100)) ∧
    ∀ a : Box, contains a a = true := by
  constructor
  · intro outer inner
    simp [contains, and_assoc]
  · intro a
    simp only [contains, Bool.and_eq_true, decide_eq_true_eq, ge_iff_le]
    refine ⟨⟨⟨by linarith, by linarith⟩, by linarith⟩, by linarith⟩

/-- C6 counterexample: for two records with equal boxes the nesting
check of `extract_nested_tables` reports the second table as nested
inside the first, not `Neither`. -/
theorem C6_counterexample :
    nestedCheck ⟨0, 0, 1, 1⟩ ⟨0, 0, 1, 1⟩ = NestedResult.secondInsideFirst ∧
    NestedResult.secondInsideFirst ≠ NestedResult.neither := by
  exact ⟨by decide, by decide⟩

/-- C6 amended: for equal boxes the nesting check takes its first
branch and reports the second record as nested inside the first. -/
theorem C6_equal_boxes_nested (a b : Box) (h : a = b) :
    nestedCheck a b = NestedResult.secondInsideFirst := by
  subst h
  simp [nestedCheck, insideBox]

/-- C6 witness: the amended statement at a concrete box. -/
theorem C6_witness :
    nestedCheck ⟨0, 0, 1, 1⟩ ⟨0, 0, 1, 1⟩ = NestedResult.secondInsideFirst :=
  C6_equal_boxes_nested _ _ rfl

/-- C7 counterexample: two tables on different pages (0 and 3) are
still compared; the nested-pairs scan returns an ordering result
instead of failing. -/
theorem C7_counterexample :
    nestedPairs [("t1", ⟨0, ⟨0, 0, 1, 1⟩⟩), ("t2", ⟨3, ⟨0, 0, 1, 1⟩⟩)] =
      [("t1", "t2")] ∧
    (0 : Nat) ≠ 3 := by
  exact ⟨by decide, by decide⟩

/-- C7 amended: no geometry path fails on a page mismatch.  The
nested-pairs scan of `extract_nested_tables` never consults pages (its
result is invariant under arbitrary reassignment of page numbers), and
the cell filter of `analyze_table_structure` silently keeps only cells
on the table's page. -/
theorem C7_no_invalid_comparison :
    (∀ (l : List (String × TableGrounding)) (f : String × TableGrounding → Nat),
        nestedPairs (l.map fun t => (t.1, ⟨f t, t.2.box⟩)) = nestedPairs l) ∧
    (∀ (table : TableGrounding) (cells : List (String × CellGrounding))
        (c : String × CellGrounding),
        c ∈ tableCellsFor table cells → c.2.page = table.page) := by
  constructor
  · intro l f
    induction l with
    | nil => rfl
    | cons t ts ih =>
      show (ts.map fun t => (t.1, (⟨f t, t.2.box⟩ : TableGrounding))).flatMap
            (pairResult (t.1, ⟨f t, t.2.box⟩)) ++
          nestedPairs (ts.map fun t => (t.1, ⟨f t, t.2.box⟩)) =
        ts.flatMap (pairResult t) ++ nestedPairs ts
      rw [ih, List.flatMap_map]
      rfl
  · intro table cells c hc
    simp only [tableCellsFor, List.mem_filter, Bool.and_eq_true, beq_iff_eq] at hc
    exact hc.2.1.2

/-- C7 witness: the amended statement at concrete inputs; pages play no
part in the nested scan, and a filtered cell lies on the table's page. -/
theorem C7_witness :
    nestedPairs ([("t1", (⟨0, ⟨0, 0, 1, 1⟩⟩ : TableGrounding))].map
        fun t => (t.1, ⟨9, t.2.box⟩)) =
      nestedPairs [("t1", (⟨0, ⟨0, 0, 1, 1⟩⟩ : TableGrounding))] ∧
    cellC7.2.page = tableC7.page :=
  ⟨C7_no_invalid_comparison.1 [("t1", ⟨0, ⟨0, 0, 1, 1⟩⟩)] (fun _ => 9),
   C7_no_invalid_comparison.2 tableC7 [cellC7] cellC7 (by
     simp [tableCellsFor, cellC7, tableC7, contains])⟩

/-- C8 counterexample: with zero detected tables, any requested index is
out of range, yet the failure is the no-tables error, not
`tableIndexOutOfRange`. -/
theorem C8_counterexample :
    getPdfCell [] 0 0 0 = Except.error PdfCellError.noTables ∧
    PdfCellError.noTables ≠ PdfCellError.tableIndexOutOfRange 0 0 := by
  exact ⟨rfl, by decide⟩

/-- C8 amended: when at least one table exists and the requested index
is at or beyond the table count, `get_pdf_cell` fails with the
out-of-range error carrying the requested index and the table count. -/
theorem C8_out_of_range_with_tables (tables : List (List (List Td)))
    (row col i : Nat) (hne : tables ≠ []) (hi : tables.length ≤ i) :
    getPdfCell tables row col i =
      Except.error (PdfCellError.tableIndexOutOfRange i tables.length) := by
  have h1 : ¬ tables.isEmpty = true := by
    simp [List.isEmpty_iff, hne]
  unfold getPdfCell
  rw [if_neg h1, dif_pos hi]

/-- C8 witness: requesting index 5 when 2 tables exist reports
requested 5 and available count 2. -/
theorem C8_witness :
    getPdfCell tablesC8 0 0 5 =
      Except.error (PdfCellError.tableIndexOutOfRange 5 2) :=
  C8_out_of_range_with_tables tablesC8 0 0 5 (by decide) (by decide)

/-- C9 counterexample: with only two known ids, the not-found payload
is exactly the full id list, not a proper sub-sample. -/
theorem C9_counterexample :
    getSpreadsheetCell [[("a", "1"), ("b", "2")]] "z" =
      Except.error (SpreadsheetError.cellNotFound "z" ["a", "b"]) ∧
    allCellIds [[("a", "1"), ("b", "2")]] = ["a", "b"] := by
  exact ⟨rfl, rfl⟩

/-- C9 amended: an absent id fails with a payload equal to the first
ten known ids; the payload is therefore bounded by ten but coincides
with the full list whenever at most ten ids exist. -/
theorem C9_absent_id_sample (tables : List (List (String × String)))
    (cellId : String) (hne : tables ≠ [])
    (habs : ∀ t ∈ tables, ∀ e ∈ t, e.1 ≠ cellId) :
    getSpreadsheetCell tables cellId =
      Except.error
        (SpreadsheetError.cellNotFound cellId ((allCellIds tables).take 10)) ∧
    ((allCellIds tables).take 10).length ≤ 10 := by
  constructor
  · have h1 : ¬ tables.isEmpty = true := by
      simp [List.isEmpty_iff, hne]
    unfold getSpreadsheetCell
    rw [if_neg h1, findCellInTables_eq_none tables cellId habs]
  · exact List.length_take_le 10 _

/-- C9 witness: the amended statement at a concrete two-id table. -/
theorem C9_witness :
    getSpreadsheetCell tablesC9 "zz" =
      Except.error
        (SpreadsheetError.cellNotFound "zz" ((allCellIds tablesC9).take 10)) ∧
    ((allCellIds tablesC9).take 10).length ≤ 10 :=
  C9_absent_id_sample tablesC9 "zz" (by decide) (by decide)

/-- C10: the HTML-position grid indexes each td element by its
sequential position within its row: a coordinate is occupied exactly
when it is in range of the parsed rows, each element contributes
exactly one entry, and the attribute text (including any
rowspan/colspan) has no effect on the grid. -/
theorem C10_html_grid_sequential :
    (∀ (rows : List (List Td)) (r c : Nat) (v : String),
        ((r, c), v) ∈ buildHtmlGrid rows ↔
          ∃ row, rows[r]? = some row ∧
            ∃ td, row[c]? = some td ∧ v = td.content) ∧
    (∀ rows : List (List Td),
        (buildHtmlGrid rows).length = (rows.map List.length).sum) ∧
    (∀ (rows : List (List Td)) (f : Td → String),
        buildHtmlGrid (rows.map (List.map fun td => ⟨f td, td.content⟩)) =
          buildHtmlGrid rows) := by
  refine ⟨?_, ?_, ?_⟩
  · intro rows r c v
    simp only [buildHtmlGrid, List.mem_flatMap, List.mem_map]
    constructor
    · rintro ⟨a, ha, x, hx, heq⟩
      simp only [Prod.ext_iff] at heq
      obtain ⟨⟨h1, h2⟩, h3⟩ := heq
      refine ⟨a.2, ?_, x.2, ?_, h3.symm⟩
      · rw [← h1]; exact List.mem_enum_iff_getElem?.mp ha
      · rw [← h2]; exact List.mem_enum_iff_getElem?.mp hx
    · rintro ⟨row, hrow, td, htd, hv⟩
      refine ⟨(r, row), List.mem_enum_iff_getElem?.mpr hrow,
        (c, td), List.mem_enum_iff_getElem?.mpr htd, ?_⟩
      simp [hv]
  · intro rows
    simp only [buildHtmlGrid, List.flatMap, List.length_flatten, List.map_map,
      Function.comp_def, List.length_map, List.enum_length]
    have : (rows.enum.map fun a => a.2.length) = rows.map List.length := by
      rw [show (fun a : Nat × List Td => a.2.length) =
          (List.length ∘ Prod.snd) from rfl, ← List.map_map, List.enum_map_snd]
    rw [this]
  · intro rows f
    simp only [buildHtmlGrid, List.enum_map, List.flatMap_map]
    congr 1
    funext a
    simp only [Prod.map, id_eq, List.enum_map, List.map_map]
    rfl

/-- C1 counterexample: two cells both claiming position (2,2); the grid
keeps the later writer's content, not the first writer's, and no
integrity error exists to be emitted. -/
theorem C1_counterexample :
    dfGrid [⟨2, 2, 1, 1⟩, ⟨1, 2, 2, 1⟩] (2, 2) =
      some (cellContent ⟨1, 2, 2, 1⟩) ∧
    cellContent ⟨1, 2, 2, 1⟩ ≠ cellContent ⟨2, 2, 1, 1⟩ := by
  exact ⟨by decide, by decide⟩

/-- C1 amended: the fill loop reports nothing; at any coordinate the
content kept is that of the last cell in input order that covers the
coordinate within the anchor-derived bounds. -/
theorem C1_last_writer_wins (cells : List CellPos) (rc : Nat × Nat)
    (p : CellPos)
    (h : cells.reverse.find?
        (fun q => decide (covers q rc ∧
          rc.1 ≤ dfMaxRow cells ∧ rc.2 ≤ dfMaxCol cells)) = some p) :
    dfGrid cells rc = some (cellContent p) := by
  unfold dfGrid
  rw [foldl_writeCell_eq, h]

/-- C1 witness: the amended statement at the two overlapping cells. -/
theorem C1_witness :
    dfGrid [⟨2, 2, 1, 1⟩, ⟨1, 2, 2, 1⟩] (2, 2) =
      some (cellContent ⟨1, 2, 2, 1⟩) :=
  C1_last_writer_wins [⟨2, 2, 1, 1⟩, ⟨1, 2, 2, 1⟩] (2, 2) ⟨1, 2, 2, 1⟩
    (by decide)

/-- C2 counterexample: a cell at row 5 with rowspan 3 yields a grid
row bound of 5, not at least 7, in the dataframe and markdown paths;
only the analyze path extends by the span. -/
theorem C2_counterexample :
    dfMaxRow [⟨5, 0, 3, 1⟩] = 5 ∧
    mdMaxRow (buildCellsData [("g1", ⟨5, 0, 3, 1⟩)]) = 5 ∧
    analyzeMaxRow [⟨5, 0, 3, 1⟩] = 7 ∧ ¬(7 ≤ 5) := by
  exact ⟨by decide, by decide, by decide, by decide⟩

/-- C2 amended: `analyze_table_structure` bounds the grid by
anchor + span - 1, while `extract_table_to_dataframe` and
`reconstruct_table_markdown` bound it by the maximum anchor alone; the
anchor-only bounds never exceed the span-extended ones. -/
theorem C2_dims_anchor_vs_span (cells : List CellPos) (c : CellPos)
    (gs : List (String × CellPos)) (hmem : c ∈ cells)
    (hr : ∀ x ∈ cells, 1 ≤ x.rowspan) (hc : ∀ x ∈ cells, 1 ≤ x.colspan) :
    c.row + c.rowspan - 1 ≤ analyzeMaxRow cells ∧
    c.col + c.colspan - 1 ≤ analyzeMaxCol cells ∧
    dfMaxRow cells ≤ analyzeMaxRow cells ∧
    dfMaxCol cells ≤ analyzeMaxCol cells ∧
    mdMaxRow (buildCellsData gs) = dfMaxRow (gs.map Prod.snd) ∧
    mdMaxCol (buildCellsData gs) = dfMaxCol (gs.map Prod.snd) := by
  refine ⟨?_, ?_, ?_, ?_, ?_, ?_⟩
  · exact le_foldl_max _ 0 _ (List.mem_map_of_mem _ hmem)
  · exact le_foldl_max _ 0 _ (List.mem_map_of_mem _ hmem)
  · apply foldl_max_le _ 0 _ (Nat.zero_le _)
    intro a ha
    obtain ⟨x, hx, rfl⟩ := List.mem_map.mp ha
    have h1 := hr x hx
    calc x.row ≤ x.row + x.rowspan - 1 := by omega
      _ ≤ analyzeMaxRow cells := le_foldl_max _ 0 _ (List.mem_map_of_mem _ hx)
  · apply foldl_max_le _ 0 _ (Nat.zero_le _)
    intro a ha
    obtain ⟨x, hx, rfl⟩ := List.mem_map.mp ha
    have h1 := hc x hx
    calc x.col ≤ x.col + x.colspan - 1 := by omega
      _ ≤ analyzeMaxCol cells := le_foldl_max _ 0 _ (List.mem_map_of_mem _ hx)
  · unfold mdMaxRow buildCellsData dfMaxRow
    rw [List.map_map, List.map_map]
    rfl
  · unfold mdMaxCol buildCellsData dfMaxCol
    rw [List.map_map, List.map_map]
    rfl

/-- C2 witness: the amended statement at the rowspan-3 colspan-2 cell. -/
theorem C2_witness :
    7 ≤ analyzeMaxRow cellsC2 ∧
    1 ≤ analyzeMaxCol cellsC2 ∧
    dfMaxRow cellsC2 ≤ analyzeMaxRow cellsC2 ∧
    dfMaxCol cellsC2 ≤ analyzeMaxCol cellsC2 ∧
    mdMaxRow (buildCellsData [("g1", ⟨5, 0, 3, 2⟩)]) =
      dfMaxRow ([("g1", (⟨5, 0, 3, 2⟩ : CellPos))].map Prod.snd) ∧
    mdMaxCol (buildCellsData [("g1", ⟨5, 0, 3, 2⟩)]) =
      dfMaxCol ([("g1", (⟨5, 0, 3, 2⟩ : CellPos))].map Prod.snd) :=
  C2_dims_anchor_vs_span cellsC2 ⟨5, 0, 3, 2⟩ [("g1", ⟨5, 0, 3, 2⟩)]
    (by decide) (by decide) (by decide)

/-- C3 counterexample: a single non-overlapping cell at (0,0) with
rowspan 2 covers (1,0), yet the grid holds nothing there, because the
bounds come from the anchors alone. -/
theorem C3_counterexample :
    covers ⟨0, 0, 2, 1⟩ (1, 0) ∧ dfGrid [⟨0, 0, 2, 1⟩] (1, 0) = none := by
  exact ⟨by decide, by decide⟩

/-- C3 amended: for a non-overlapping cell set, lookup at a coordinate
covered by a cell returns that cell's content provided the coordinate
lies within the anchor-derived bounds. -/
theorem C3_covered_within_bounds (cells : List CellPos) (c : CellPos)
    (rc : Nat × Nat) (hmem : c ∈ cells) (hcov : covers c rc)
    (hrb : rc.1 ≤ dfMaxRow cells) (hcb : rc.2 ≤ dfMaxCol cells)
    (hdisj : cells.Pairwise fun a b => ∀ q, ¬(covers a q ∧ covers b q)) :
    dfGrid cells rc = some (cellContent c) := by
  have hsymm : Symmetric (fun a b : CellPos => ∀ q, ¬(covers a q ∧ covers b q)) :=
    fun a b h q hq => h q ⟨hq.2, hq.1⟩
  have huniq : ∀ p ∈ cells, covers p rc → p = c := by
    intro p hp hpc
    by_contra hne
    exact (hdisj.forall hsymm) hp hmem hne rc ⟨hpc, hcov⟩
  unfold dfGrid
  rw [foldl_writeCell_eq]
  cases hf : cells.reverse.find?
      (fun q => decide (covers q rc ∧
        rc.1 ≤ dfMaxRow cells ∧ rc.2 ≤ dfMaxCol cells)) with
  | none =>
    exfalso
    have hno := List.find?_eq_none.mp hf c (List.mem_reverse.mpr hmem)
    simp only [decide_eq_true_eq] at hno
    exact hno ⟨hcov, hrb, hcb⟩
  | some p =>
    have hp := List.find?_some hf
    simp only [decide_eq_true_eq] at hp
    have hpc : p = c :=
      huniq p (List.mem_reverse.mp (List.mem_of_find?_eq_some hf)) hp.1
    rw [hpc]

/-- C3 witness: the amended statement at a merged header cell whose
covered coordinate (0,1) stays within the anchor bounds. -/
theorem C3_witness :
    dfGrid [⟨0, 0, 1, 2⟩, ⟨1, 1, 1, 1⟩] (0, 1) =
      some (cellContent ⟨0, 0, 1, 2⟩) :=
  C3_covered_within_bounds [⟨0, 0, 1, 2⟩, ⟨1, 1, 1, 1⟩] ⟨0, 0, 1, 2⟩ (0, 1)
    (by decide) (by decide) (by decide) (by decide)
    (by
      refine List.Pairwise.cons ?_ (List.pairwise_singleton _ _)
      intro b hb q hq
      simp only [List.mem_singleton] at hb
      subst hb
      obtain ⟨h1, h2⟩ := hq
      simp only [covers] at h1 h2
      omega)

lemma flatMap_single_eq_map {α β : Type} (l : List α) (f : α → β) :
    (l.flatMap fun x => [f x]) = l.map f := by
  induction l with
  | nil => rfl
  | cons a l ih => simp [List.flatMap_cons, ih]

lemma mdLines_eq (cd : List ((Nat × Nat) × CellData)) :
    mdLines cd =
      MdLine.row (rowTokens cd 0) :: MdLine.sep (mdMaxCol cd + 1) ::
        ((List.range (mdMaxRow cd)).map fun i =>
          MdLine.row (rowTokens cd (i + 1))) := by
  unfold mdLines
  rw [List.range_succ_eq_map, List.flatMap_cons, List.flatMap_map]
  have hfun : ∀ i : Nat,
      (MdLine.row (rowTokens cd (i + 1)) ::
        (if i + 1 = 0 then [MdLine.sep (mdMaxCol cd + 1)] else [])) =
      [MdLine.row (rowTokens cd (i + 1))] := by
    intro i; simp
  simp only [Nat.succ_eq_add_one, hfun, if_pos rfl]
  rw [flatMap_single_eq_map]
  rfl

lemma filter_isSep_map_row (l : List Nat) (g : Nat → List String) :
    ((l.map fun i => MdLine.row (g i)).filter MdLine.isSep) = [] := by
  induction l with
  | nil => rfl
  | cons a l ih => simp [List.filter_cons, MdLine.isSep, ih]

lemma cell_text_ne_marker (s t u v : String) :
    ("Cell" ++ s ++ t ++ u ++ v : String) ≠ "^^" := by
  intro h
  have hl := congrArg String.length h
  rw [String.length_append, String.length_append, String.length_append,
    String.length_append] at hl
  have h4 : ("Cell" : String).length = 4 := rfl
  have h2 : ("^^" : String).length = 2 := rfl
  omega

/-- C4 counterexample: a single cell at (0,0) with rowspan 2 covers
(1,0), yet the rendered output has no second row at all and hence no
placeholder for that covered position, because the row bound comes from
the anchors alone. -/
theorem C4_counterexample :
    mdLines (buildCellsData [("g1", ⟨0, 0, 2, 1⟩)]) =
      [MdLine.row ["Cell00 (spans 2 rows)"], MdLine.sep 1] ∧
    coveredBy ((0, 0), ⟨"g1", 2, 1, "Cell00"⟩) 1 0 := by
  exact ⟨by decide, by decide⟩

/-- C4 amended: within the anchor-derived bounds, a coordinate covered
by a cell but anchoring none renders the placeholder token, which never
equals any cell's decorated content; the rendered lines carry exactly
one separator, placed directly after row 0. -/
theorem C4_markdown_render (gs : List (String × CellPos))
    (e e2 : (Nat × Nat) × CellData) (r c : Nat)
    (hmem : e ∈ buildCellsData gs) (hmem2 : e2 ∈ buildCellsData gs)
    (hcov : coveredBy e r c)
    (hnk : ∀ x ∈ buildCellsData gs, x.1 ≠ (r, c))
    (hrb : r ≤ mdMaxRow (buildCellsData gs))
    (hcb : c ≤ mdMaxCol (buildCellsData gs)) :
    renderToken (buildCellsData gs) r c = "^^" ∧
    annotContent e2.2 ≠ "^^" ∧
    (rowTokens (buildCellsData gs) r)[c]? = some "^^" ∧
    MdLine.row (rowTokens (buildCellsData gs) r) ∈ mdLines (buildCellsData gs) ∧
    (mdLines (buildCellsData gs))[1]? =
      some (MdLine.sep (mdMaxCol (buildCellsData gs) + 1)) ∧
    ((mdLines (buildCellsData gs)).filter MdLine.isSep).length = 1 := by
  have htok : renderToken (buildCellsData gs) r c = "^^" := by
    unfold renderToken
    have h1 : (buildCellsData gs).find? (fun x => x.1 == (r, c)) = none := by
      apply List.find?_eq_none.mpr
      intro x hx
      simp only [beq_iff_eq]
      exact hnk x hx
    rw [h1]
    have h2 : ((buildCellsData gs).find?
        (fun x => decide (coveredBy x r c))).isSome := by
      rw [List.find?_isSome]
      exact ⟨e, hmem, decide_eq_true hcov⟩
    obtain ⟨x, hx⟩ := Option.isSome_iff_exists.mp h2
    rw [hx]
  refine ⟨htok, ?_, ?_, ?_, ?_, ?_⟩
  · obtain ⟨g, hg, hge⟩ := List.mem_map.mp hmem2
    rw [← hge]
    unfold annotContent
    exact cell_text_ne_marker _ _ _ _
  · unfold rowTokens
    rw [List.getElem?_map, List.getElem?_range (by omega : c < mdMaxCol (buildCellsData gs) + 1)]
    simp [htok]
  · unfold mdLines
    refine List.mem_flatMap.mpr ⟨r, List.mem_range.mpr (by omega), ?_⟩
    exact List.mem_cons_self _ _
  · rw [mdLines_eq]
    simp
  · rw [mdLines_eq]
    simp [List.filter_cons, MdLine.isSep, filter_isSep_map_row]

/-- C4 witness: the amended statement at the merged header fixture,
covered coordinate (0,1). -/
theorem C4_witness :
    renderToken (buildCellsData gsC4) 0 1 = "^^" ∧
    annotContent (⟨"g1", 1, 2, "Cell00"⟩ : CellData) ≠ "^^" ∧
    (rowTokens (buildCellsData gsC4) 0)[1]? = some "^^" ∧
    MdLine.row (rowTokens (buildCellsData gsC4) 0) ∈ mdLines (buildCellsData gsC4) ∧
    (mdLines (buildCellsData gsC4))[1]? =
      some (MdLine.sep (mdMaxCol (buildCellsData gsC4) + 1)) ∧
    ((mdLines (buildCellsData gsC4)).filter MdLine.isSep).length = 1 :=
  C4_markdown_render gsC4 ((0, 0), ⟨"g1", 1, 2, "Cell00"⟩)
    ((0, 0), ⟨"g1", 1, 2, "Cell00"⟩) 0 1
    (by decide) (by decide) (by decide) (by decide) (by decide) (by decide)

end ADE
